import Mathlib

/-!
Verification of the response-normalization and endpoint logic of
`server.py` (image-recognizer): a Flask endpoint that decodes a base64
image, calls an external model, and normalizes the model's free-form
reply into a fixed five-field result schema.

Python strings are modelled as `List Char`; Python values occurring in
JSON-decoded mappings as the inductive `PyVal`; dicts as association
lists looked up by first match.  The external libraries the repository
treats as opaque (base64 decoding, PIL image loading, the Gemini client,
`json.loads`) are parameters of the endpoint model.
-/

/-- Raw text (a Python `str`) as a list of characters. -/
abbrev RawText := List Char

/-- A Python value as it can occur in a JSON-decoded mapping. -/
inductive PyVal where
  | vNone
  | vBool (b : Bool)
  | vInt (n : Int)
  | vStr (s : String)
  | vList (xs : List PyVal)
  | vDict (entries : List (String × PyVal))

/-- A Python dict, as an association list (first binding wins). -/
abbrev Mapping := List (String × PyVal)

/-- First-match lookup in a mapping (`result[k]` / presence of key `k`). -/
def getOpt : Mapping → String → Option PyVal
  | [], _ => none
  | (k, v) :: rest, key => if k = key then some v else getOpt rest key

/-- Python `result.get(key, default)`. -/
def pyGet (m : Mapping) (key : String) (d : PyVal) : PyVal :=
  (getOpt m key).getD d

/-- Python truthiness (`bool(x)`) on the modelled values. -/
def truthy : PyVal → Bool
  | .vNone => false
  | .vBool b => b
  | .vInt n => decide (n ≠ 0)
  | .vStr s => !s.isEmpty
  | .vList xs => !xs.isEmpty
  | .vDict es => !es.isEmpty

/-- The membership test `validated['confidence'] in ['high','medium','low']`:
Python `==` never equates a non-string with these string literals. -/
def isValidConfidence : PyVal → Bool
  | .vStr s => s == "high" || s == "medium" || s == "low"
  | _ => false

/-- The `isinstance(x, list)` coercion of `validate_result`: a list is
kept as is (elements unchecked), anything else becomes the empty list. -/
def asList : PyVal → PyVal
  | .vList xs => .vList xs
  | _ => .vList []

/-- `validate_result` of `server.py` (lines 160-178): rebuild the dict
with the five schema keys, force `found` to a boolean, clamp
`confidence` to the three-value enum, default the remaining fields, and
coerce `additional_objects` to a list. -/
def validate_result (result : Mapping) : Mapping :=
  [("found", .vBool (truthy (pyGet result "found" (.vBool false)))),
   ("confidence",
     if isValidConfidence (pyGet result "confidence" (.vStr "medium"))
     then pyGet result "confidence" (.vStr "medium") else .vStr "medium"),
   ("description", pyGet result "description" (.vStr "No description available")),
   ("location", pyGet result "location" (.vStr "Unknown")),
   ("additional_objects", asList (pyGet result "additional_objects" (.vList [])))]

/-- Python `str.lower()` (ASCII case folding, as all scanned keywords
are ASCII). -/
def lowerText (t : RawText) : RawText := t.map Char.toLower

/-- Python `keyword in text`: substring containment. -/
def containsTok (t : RawText) (k : String) : Bool := decide (k.data <:+: t)

/-- The positive keyword list of `create_fallback_result`. -/
def foundKeywords : List String := ["yes", "found", "present", "visible", "see", "true"]

/-- The negative keyword list of `create_fallback_result`. -/
def notFoundKeywords : List String := ["no", "not found", "absent", "cannot", "false"]

/-- One keyword-scanning loop of `create_fallback_result`: on the first
keyword contained in the text set the flag to `setTo` and break,
otherwise leave the accumulator unchanged. -/
def scanKeywords (textLower : RawText) (setTo : Bool) : List String → Bool → Bool
  | [], found => found
  | k :: ks, found =>
    if containsTok textLower k then setTo else scanKeywords textLower setTo ks found

/-- `create_fallback_result` of `server.py` (lines 133-158): keyword
heuristic over the lowercased text (positive scan, then negative scan
which overrides), description truncated to 500 characters, fixed
confidence and location. The `object_name` argument is unused, as in
the source. -/
def create_fallback_result (text object_name : RawText) : Mapping :=
  let text_lower := lowerText text
  let found0 := scanKeywords text_lower true foundKeywords false
  let found := scanKeywords text_lower false notFoundKeywords found0
  [("found", .vBool found),
   ("confidence", .vStr "medium"),
   ("description", .vStr ⟨text.take 500⟩),
   ("location", .vStr (if found then "See description" else "Not applicable")),
   ("additional_objects", .vList [])]

/-- The opening-brace character. -/
def lbrace : Char := '\x7b'

/-- The closing-brace character. -/
def rbrace : Char := '\x7d'

/-- The span found by `re.search(r'\x7b[\s\S]*\x7d', result_text)` in
`analyze_image` (line 106): the regex is greedy, so a match runs from
the first opening brace to the last closing brace anywhere in the text
(a match needs a closing brace strictly after that opening brace). -/
def extractSpan (t : RawText) : Option RawText :=
  let fromBrace := t.dropWhile (· ≠ lbrace)
  let span := (fromBrace.reverse.dropWhile (· ≠ rbrace)).reverse
  if 2 ≤ span.length then some span else none

/-- Modelled from the spec (glossary, "Balanced-brace span"): scan from
a leading opening brace, tracking brace depth, and stop at the brace
that returns the depth to zero; `none` when the braces never balance. -/
def balancedFrom : RawText → Nat → Option RawText
  | [], _ => none
  | c :: cs, d =>
    if c = lbrace then (balancedFrom cs (d + 1)).map (c :: ·)
    else if c = rbrace then
      if d = 1 then some [c]
      else (balancedFrom cs (d - 1)).map (c :: ·)
    else (balancedFrom cs d).map (c :: ·)

/-- Modelled from the spec (glossary, "Balanced-brace span"): "the
substring beginning at the first `\x7b` and ending at its matching
`\x7d`". -/
def specBalancedSpan (t : RawText) : Option RawText :=
  balancedFrom (t.dropWhile (· ≠ lbrace)) 0

/-- The response-normalization pipeline of `analyze_image` (lines
106-119): locate a JSON span, strict-parse it (`json.loads`, abstracted
as the `parseJson` parameter, `none` meaning `JSONDecodeError`), fall
back to the keyword heuristic when no span is found or parsing fails,
then validate. -/
def normalizeReply (parseJson : RawText → Option Mapping)
    (result_text object_name : RawText) : Mapping :=
  validate_result
    (match extractSpan result_text with
     | some span => (parseJson span).getD (create_fallback_result result_text object_name)
     | none => create_fallback_result result_text object_name)

/-- Python `s.split(sep)` for a one-character separator: no maxsplit,
empty pieces kept. -/
def splitChar : RawText → Char → List RawText
  | [], _ => [[]]
  | c :: cs, sep =>
    if c = sep then [] :: splitChar cs sep
    else
      match splitChar cs sep with
      | [] => [[c]]
      | h :: rest => (c :: h) :: rest

/-- The data-URL stripping of `analyze_image` (lines 62-64):
`if ',' in image_data: image_data = image_data.split(',')[1]` — the
piece between the first and the second comma (or the end). -/
def stripDataUrl (s : RawText) : RawText :=
  if ',' ∈ s then (splitChar s ',').getD 1 [] else s

/-- Modelled from the spec (4.1): "strip any prefix up to and including
the first comma" and keep the (entire) remainder. -/
def specStripRemainder (s : RawText) : RawText :=
  if ',' ∈ s then (s.dropWhile (· ≠ ',')).tail else s

/-- The request body of `POST /api/analyze`; `none` models an absent
key (`data.get` returning `None`). -/
structure AnalysisRequest where
  image : Option RawText
  object_name : Option RawText

/-- An HTTP response of the endpoint, by its three status shapes. -/
inductive HttpResponse where
  | ok (result : Mapping)
  | badRequest (error : String)
  | serverError (error : String)

/-- The HTTP status code of a response. -/
def HttpResponse.status : HttpResponse → Nat
  | .ok _ => 200
  | .badRequest _ => 400
  | .serverError _ => 500

/-- The `success` flag in the response body. -/
def HttpResponse.success : HttpResponse → Bool
  | .ok _ => true
  | .badRequest _ => false
  | .serverError _ => false

/-- Python truthiness of `data.get('image')` / `data.get('object_name')`:
falsy when absent or the empty string. -/
def optTruthy : Option RawText → Bool
  | none => false
  | some t => !t.isEmpty

/-- `analyze_image` of `server.py` (lines 27-131).  The opaque external
calls are parameters: `b64decode` (`base64.b64decode`, `none` meaning it
raised), `loadImage` (`PIL.Image.open` succeeding on the bytes),
`modelReply` (the Gemini call, from the object name embedded in the
prompt to the raw reply text, `none` meaning the call raised and the
outer `except` answers 500), and `parseJson` (`json.loads`). -/
def analyze_image (b64decode : RawText → Option (List Nat))
    (loadImage : List Nat → Bool)
    (modelReply : RawText → Option RawText)
    (parseJson : RawText → Option Mapping)
    (req : AnalysisRequest) : HttpResponse :=
  if !optTruthy req.image || !optTruthy req.object_name then
    .badRequest "Missing required fields: image and object_name"
  else
    let object_name := req.object_name.getD []
    let image_data := stripDataUrl (req.image.getD [])
    match b64decode image_data with
    | none => .badRequest "Invalid base64 image data"
    | some image_bytes =>
      if loadImage image_bytes then
        match modelReply object_name with
        | none => .serverError "Server error"
        | some result_text => .ok (normalizeReply parseJson result_text object_name)
      else .badRequest "Invalid image format"

/-- Whether a value is a Python string (used to state "sequence of
strings"). -/
def isStrVal : PyVal → Bool
  | .vStr _ => true
  | _ => false

/-! Helper lemmas used by several claim proofs. -/

lemma ifConf_eq (v : PyVal) :
    ∃ c, (if isValidConfidence v then v else PyVal.vStr "medium") = PyVal.vStr c ∧
      (c = "high" ∨ c = "medium" ∨ c = "low") := by
  by_cases h : isValidConfidence v = true
  · cases v with
    | vStr s =>
      refine ⟨s, by simp [h], ?_⟩
      simpa only [isValidConfidence, Bool.or_eq_true, beq_iff_eq, or_assoc] using h
    | vNone => simp [isValidConfidence] at h
    | vBool b => simp [isValidConfidence] at h
    | vInt n => simp [isValidConfidence] at h
    | vList xs => simp [isValidConfidence] at h
    | vDict es => simp [isValidConfidence] at h
  · exact ⟨"medium", by simp [h], Or.inr (Or.inl rfl)⟩

lemma asList_eq (v : PyVal) : ∃ xs, asList v = PyVal.vList xs := by
  cases v <;> exact ⟨_, rfl⟩

lemma validate_result_shape (r : Mapping) :
    ∃ b c d l ao, validate_result r =
      [("found", PyVal.vBool b), ("confidence", PyVal.vStr c), ("description", d),
       ("location", l), ("additional_objects", PyVal.vList ao)] ∧
      (c = "high" ∨ c = "medium" ∨ c = "low") := by
  obtain ⟨c, hc, hc3⟩ := ifConf_eq (pyGet r "confidence" (.vStr "medium"))
  obtain ⟨ao, hao⟩ := asList_eq (pyGet r "additional_objects" (.vList []))
  refine ⟨truthy (pyGet r "found" (.vBool false)), c,
    pyGet r "description" (.vStr "No description available"),
    pyGet r "location" (.vStr "Unknown"), ao, ?_, hc3⟩
  unfold validate_result
  rw [hc, hao]

lemma scanKeywords_true_eq (t : RawText) (ks : List String) :
    scanKeywords t true ks false = ks.any (fun k => containsTok t k) := by
  induction ks with
  | nil => rfl
  | cons k ks ih =>
    by_cases h : containsTok t k = true <;>
      simp [scanKeywords, List.any_cons, h, ih]

lemma scanKeywords_false_eq (t : RawText) (ks : List String) (acc : Bool) :
    scanKeywords t false ks acc = ((!ks.any (fun k => containsTok t k)) && acc) := by
  induction ks with
  | nil => simp [scanKeywords]
  | cons k ks ih =>
    by_cases h : containsTok t k = true <;>
      simp [scanKeywords, List.any_cons, h, ih]

/-! The claims. -/

/-- C2: for every input mapping, the result of `validate_result` has all
five fields `found`, `confidence`, `description`, `location`,
`additional_objects` present, and its confidence value is one of
"high", "medium", "low". -/
theorem c2_validated_invariant (r : Mapping) :
    ∃ b c d l ao, validate_result r =
      [("found", PyVal.vBool b), ("confidence", PyVal.vStr c), ("description", d),
       ("location", l), ("additional_objects", PyVal.vList ao)] ∧
      (c = "high" ∨ c = "medium" ∨ c = "low") :=
  validate_result_shape r

/-- C7: validation is idempotent — `validate_result (validate_result r)`
equals `validate_result r` for every input mapping. -/
theorem c7_validate_idempotent (r : Mapping) :
    validate_result (validate_result r) = validate_result r := by
  obtain ⟨b, c, d, l, ao, heq, hc3⟩ := validate_result_shape r
  have hvc : isValidConfidence (.vStr c) = true := by
    rcases hc3 with h | h | h <;> simp [isValidConfidence, h]
  rw [heq]
  show validate_result
      [("found", PyVal.vBool b), ("confidence", PyVal.vStr c), ("description", d),
       ("location", l), ("additional_objects", PyVal.vList ao)] = _
  unfold validate_result
  simp [pyGet, getOpt, hvc, asList, truthy]

/-- C10: the fallback heuristic ignores the object name — for every raw
text and any two names, `create_fallback_result` returns identical
results. -/
theorem c10_fallback_ignores_name (text n1 n2 : RawText) :
    create_fallback_result text n1 = create_fallback_result text n2 := rfl

/-- C3: the fallback heuristic sets `found=true` iff the lowercased text
contains at least one positive keyword and none of the negative
keywords (negative evidence always wins); in particular the text
"not found", which carries no other cue, yields `found=false`. -/
theorem c3_fallback_found_iff (text object_name : RawText) :
    getOpt (create_fallback_result text object_name) "found" =
      some (.vBool ((foundKeywords.any (fun k => containsTok (lowerText text) k)) &&
        !(notFoundKeywords.any (fun k => containsTok (lowerText text) k)))) ∧
    getOpt (create_fallback_result "not found".data object_name) "found" =
      some (.vBool false) := by
  constructor
  · show some (PyVal.vBool (scanKeywords (lowerText text) false notFoundKeywords
      (scanKeywords (lowerText text) true foundKeywords false))) = _
    rw [scanKeywords_true_eq, scanKeywords_false_eq, Bool.and_comm]
  · rfl

/-- C4: the fallback result has confidence "medium", description equal
to the first 500 characters of the raw text (a prefix of it, of length
at most 500), location "See description" when found and
"Not applicable" otherwise, and an empty `additional_objects`. -/
theorem c4_fallback_shape (text object_name : RawText) :
    ∃ b, getOpt (create_fallback_result text object_name) "found" = some (.vBool b) ∧
    getOpt (create_fallback_result text object_name) "confidence" =
      some (.vStr "medium") ∧
    getOpt (create_fallback_result text object_name) "description" =
      some (.vStr ⟨text.take 500⟩) ∧
    (text.take 500).length ≤ 500 ∧
    (∃ rest, text = text.take 500 ++ rest) ∧
    getOpt (create_fallback_result text object_name) "location" =
      some (.vStr (if b then "See description" else "Not applicable")) ∧
    getOpt (create_fallback_result text object_name) "additional_objects" =
      some (.vList []) := by
  refine ⟨scanKeywords (lowerText text) false notFoundKeywords
    (scanKeywords (lowerText text) true foundKeywords false),
    rfl, rfl, rfl, ?_, ⟨text.drop 500, (List.take_append_drop 500 text).symm⟩, rfl, rfl⟩
  rw [List.length_take]
  exact min_le_left _ _

/-- C6 counterexample: validating a mapping whose `additional_objects`
is a list holding a boolean keeps that non-string element, refuting
"no validated result ever carries a non-string element". -/
theorem c6_counterexample :
    getOpt (validate_result [("additional_objects", PyVal.vList [PyVal.vBool true])])
        "additional_objects" = some (PyVal.vList [PyVal.vBool true]) ∧
    isStrVal (PyVal.vBool true) = false :=
  ⟨rfl, rfl⟩

/-- C6 amended: validation forces `additional_objects` to the empty
sequence when the field is missing or its value is not a sequence, and
keeps a sequence value unchanged — its elements are not checked, so
non-string elements survive; a missing field becomes the empty
sequence, never null or absent. -/
theorem c6_additional_objects (r : Mapping) :
    (getOpt r "additional_objects" = none →
      getOpt (validate_result r) "additional_objects" = some (.vList [])) ∧
    (∀ v, getOpt r "additional_objects" = some v →
      getOpt (validate_result r) "additional_objects" = some (asList v)) := by
  have base : getOpt (validate_result r) "additional_objects" =
      some (asList (pyGet r "additional_objects" (.vList []))) := rfl
  constructor
  · intro h
    rw [base]
    unfold pyGet
    rw [h]
    rfl
  · intro v h
    rw [base]
    unfold pyGet
    rw [h]
    rfl

/-- C6 amended, witness: a missing field becomes the empty sequence and
a present non-list value is coerced by `asList`. -/
theorem c6_additional_objects_witness :
    getOpt (validate_result []) "additional_objects" = some (.vList []) ∧
    getOpt (validate_result [("additional_objects", PyVal.vBool true)])
        "additional_objects" = some (asList (PyVal.vBool true)) :=
  ⟨(c6_additional_objects []).1 rfl, (c6_additional_objects _).2 _ rfl⟩

lemma splitChar_ne_nil : ∀ (s : RawText) (sep : Char), splitChar s sep ≠ []
  | [], _ => by simp [splitChar]
  | c :: cs, sep => by
    simp only [splitChar]
    by_cases h : c = sep
    · simp [h]
    · rw [if_neg h]
      cases hs : splitChar cs sep <;> simp

lemma splitChar_count_zero (s : RawText) (h : s.count ',' = 0) :
    splitChar s ',' = [s] := by
  induction s with
  | nil => rfl
  | cons c cs ih =>
    by_cases hc : c = ','
    · subst hc
      rw [List.count_cons_self] at h
      omega
    · have h0 : cs.count ',' = 0 := by simpa [List.count_cons, hc] using h
      simp [splitChar, hc, ih h0]

lemma split_one_comma : ∀ (s : RawText), s.count ',' = 1 →
    (splitChar s ',').getD 1 [] = (s.dropWhile (· ≠ ',')).tail
  | [], h => by simp at h
  | c :: cs, h => by
    by_cases hc : c = ','
    · subst hc
      have h0 : cs.count ',' = 0 := by
        rw [List.count_cons_self] at h
        omega
      rw [show splitChar (',' :: cs) ',' = [] :: splitChar cs ',' from by
        simp [splitChar]]
      rw [splitChar_count_zero cs h0]
      simp [List.dropWhile]
    · have h1 : cs.count ',' = 1 := by simpa [List.count_cons, hc] using h
      have ih := split_one_comma cs h1
      cases hs : splitChar cs ',' with
      | nil => exact absurd hs (splitChar_ne_nil cs ',')
      | cons hd tl =>
        rw [show splitChar (c :: cs) ',' = (c :: hd) :: tl from by
          simp [splitChar, hc, hs]]
        rw [hs] at ih
        simpa [List.dropWhile, hc, List.getD] using ih

/-- C5 counterexample: on a string with two commas the code decodes the
piece between the first and second comma ("AAAA"), not the entire
remainder after the first comma ("AAAA,BBBB") as the claim states. -/
theorem c5_counterexample :
    stripDataUrl "data:image/png;base64,AAAA,BBBB".data = "AAAA".data ∧
    specStripRemainder "data:image/png;base64,AAAA,BBBB".data = "AAAA,BBBB".data ∧
    "AAAA".data ≠ "AAAA,BBBB".data :=
  ⟨rfl, rfl, by decide⟩

/-- C5 amended: the decoder takes `split(',')[1]`, the piece between the
first and second comma; for an image string containing exactly one
comma this is the entire remainder after the first comma, so a data-URL
prefixed payload (whose base64 part has no comma) decodes identically
to the unprefixed payload. -/
theorem c5_amended (s : RawText) (h : s.count ',' = 1) :
    stripDataUrl s = specStripRemainder s ∧
    stripDataUrl "data:image/png;base64,AAAA".data = stripDataUrl "AAAA".data := by
  have hmem : ',' ∈ s := List.count_pos_iff.mp (by omega)
  refine ⟨?_, rfl⟩
  unfold stripDataUrl specStripRemainder
  rw [if_pos hmem, if_pos hmem]
  exact split_one_comma s h

/-- C5 amended, witness at the data-URL example itself. -/
theorem c5_amended_witness :
    "data:image/png;base64,AAAA".data.count ',' = 1 ∧
    stripDataUrl "data:image/png;base64,AAAA".data =
      specStripRemainder "data:image/png;base64,AAAA".data :=
  ⟨by decide, (c5_amended "data:image/png;base64,AAAA".data (by decide)).1⟩

lemma balancedFrom_last : ∀ (l : RawText) (d : Nat) (s : RawText),
    balancedFrom l d = some s → ∃ s', s = s' ++ [rbrace] := by
  intro l
  induction l with
  | nil => intro d s h; simp [balancedFrom] at h
  | cons c cs ih =>
    intro d s h
    simp only [balancedFrom] at h
    by_cases h1 : c = lbrace
    · rw [if_pos h1] at h
      cases hb : balancedFrom cs (d + 1) with
      | none => rw [hb] at h; simp at h
      | some s0 =>
        rw [hb] at h
        simp only [Option.map_some'] at h
        obtain ⟨s', hs'⟩ := ih (d + 1) s0 hb
        have hcs := Option.some.inj h
        exact ⟨c :: s', by rw [← hcs, hs', List.cons_append]⟩
    · rw [if_neg h1] at h
      by_cases h2 : c = rbrace
      · rw [if_pos h2] at h
        by_cases h3 : d = 1
        · rw [if_pos h3] at h
          have hcs := Option.some.inj h
          exact ⟨[], by rw [← hcs, h2, List.nil_append]⟩
        · rw [if_neg h3] at h
          cases hb : balancedFrom cs (d - 1) with
          | none => rw [hb] at h; simp at h
          | some s0 =>
            rw [hb] at h
            simp only [Option.map_some'] at h
            obtain ⟨s', hs'⟩ := ih (d - 1) s0 hb
            have hcs := Option.some.inj h
            exact ⟨c :: s', by rw [← hcs, hs', List.cons_append]⟩
      · rw [if_neg h2] at h
        cases hb : balancedFrom cs d with
        | none => rw [hb] at h; simp at h
        | some s0 =>
          rw [hb] at h
          simp only [Option.map_some'] at h
          obtain ⟨s', hs'⟩ := ih d s0 hb
          have hcs := Option.some.inj h
          exact ⟨c :: s', by rw [← hcs, hs', List.cons_append]⟩

lemma dropWhile_head_false (p : Char → Bool) : ∀ (l : RawText) (x : Char)
    (xs : RawText), List.dropWhile p l = x :: xs → p x = false := by
  intro l
  induction l with
  | nil => intro x xs h; simp [List.dropWhile] at h
  | cons a as ih =>
    intro x xs h
    by_cases hp : p a = true
    · rw [List.dropWhile_cons, if_pos hp] at h
      exact ih x xs h
    · rw [List.dropWhile_cons, if_neg hp] at h
      obtain ⟨rfl, rfl⟩ : a = x ∧ as = xs := by
        exact ⟨(List.cons.injEq _ _ _ _ ▸ h).1, (List.cons.injEq _ _ _ _ ▸ h).2⟩
      simpa using hp

lemma dropWhile_append_all (p : Char → Bool) : ∀ (l1 l2 : RawText),
    (∀ x ∈ l1, p x = true) → List.dropWhile p (l1 ++ l2) = List.dropWhile p l2 := by
  intro l1
  induction l1 with
  | nil => intro l2 _; rfl
  | cons a as ih =>
    intro l2 hall
    rw [List.cons_append, List.dropWhile_cons, if_pos (hall a (by simp))]
    exact ih l2 (fun x hx => hall x (by simp [hx]))

/-- C1 counterexample: in the reply text `A \x7b"found": true\x7d B\x7d`
the first balanced brace span is the valid JSON object
`\x7b"found": true\x7d`, but the greedy regex extracts up to the last
closing brace of the text, a strictly larger span, so the normalizer
does not locate and parse exactly the embedded object. -/
theorem c1_counterexample :
    specBalancedSpan "A \x7b\x22found\x22: true\x7d B\x7d".data =
      some "\x7b\x22found\x22: true\x7d".data ∧
    extractSpan "A \x7b\x22found\x22: true\x7d B\x7d".data =
      some "\x7b\x22found\x22: true\x7d B\x7d".data ∧
    extractSpan "A \x7b\x22found\x22: true\x7d B\x7d".data ≠
      specBalancedSpan "A \x7b\x22found\x22: true\x7d B\x7d".data :=
  ⟨rfl, rfl, by decide⟩

/-- C1 amended: the extraction runs from the first opening brace to the
last closing brace of the whole text (greedy); it locates the first
balanced span exactly when no closing brace occurs in the prose after
that span, and in that case the parsed substring is exactly that
object, all surrounding prose ignored. -/
theorem c1_amended (t s rest : RawText)
    (hdrop : t.dropWhile (· ≠ lbrace) = s ++ rest)
    (hbal : specBalancedSpan t = some s)
    (hrest : rbrace ∉ rest) :
    extractSpan t = some s := by
  have hb : balancedFrom (t.dropWhile (· ≠ lbrace)) 0 = some s := hbal
  obtain ⟨s', rfl⟩ := balancedFrom_last _ 0 s hb
  have hs' : s' ≠ [] := by
    intro hnil
    subst hnil
    have hu : t.dropWhile (· ≠ lbrace) = rbrace :: rest := by simpa using hdrop
    have hhead := dropWhile_head_false (fun c => decide (c ≠ lbrace)) t rbrace rest hu
    exact absurd hhead (by decide)
  have hall : ∀ x ∈ rest.reverse, (fun c => decide (c ≠ rbrace)) x = true := by
    intro x hx
    have hxm : x ∈ rest := List.mem_reverse.mp hx
    simp only [decide_eq_true_eq]
    intro hxe
    exact hrest (hxe ▸ hxm)
  have hspan : ((t.dropWhile (· ≠ lbrace)).reverse.dropWhile (· ≠ rbrace)).reverse
      = s' ++ [rbrace] := by
    rw [hdrop, List.reverse_append, List.reverse_append, List.reverse_singleton,
      List.singleton_append]
    rw [dropWhile_append_all _ _ _ hall]
    rw [List.dropWhile_cons, if_neg (by decide)]
    rw [List.reverse_cons, List.reverse_reverse]
  have hlen : 2 ≤ (s' ++ [rbrace]).length := by
    rw [List.length_append]
    have hpos := List.length_pos.mpr hs'
    simp only [List.length_singleton]
    omega
  show (if 2 ≤ (((t.dropWhile (· ≠ lbrace)).reverse.dropWhile (· ≠ rbrace)).reverse).length
      then some (((t.dropWhile (· ≠ lbrace)).reverse.dropWhile (· ≠ rbrace)).reverse)
      else none) = some (s' ++ [rbrace])
  rw [hspan, if_pos hlen]

/-- C1 amended, witness: prose around a JSON object with no stray
braces, where the greedy extraction returns exactly the object. -/
theorem c1_amended_witness :
    extractSpan "ok \x7b\x22a\x22: 1\x7d done.".data =
      some "\x7b\x22a\x22: 1\x7d".data :=
  c1_amended "ok \x7b\x22a\x22: 1\x7d done.".data "\x7b\x22a\x22: 1\x7d".data
    " done.".data (by decide) (by decide) (by decide)

/-- C8: a malformed model reply is never surfaced as an error — when
the reply text has no JSON span, or strict parsing of the found span
fails, the pipeline produces the validated fallback result, that result
is fully populated, and the endpoint returns 200 with success=true. -/
theorem c8_parse_failure_absorbed
    (b64decode : RawText → Option (List Nat)) (loadImage : List Nat → Bool)
    (modelReply : RawText → Option RawText) (parseJson : RawText → Option Mapping)
    (req : AnalysisRequest) (text : RawText)
    (himg : optTruthy req.image = true)
    (hname : optTruthy req.object_name = true)
    (hbytes : ∃ bs, b64decode (stripDataUrl (req.image.getD [])) = some bs ∧
      loadImage bs = true)
    (hreply : modelReply (req.object_name.getD []) = some text)
    (hfail : extractSpan text = none ∨
      ∀ sp, extractSpan text = some sp → parseJson sp = none) :
    analyze_image b64decode loadImage modelReply parseJson req =
      .ok (validate_result (create_fallback_result text (req.object_name.getD []))) ∧
    (analyze_image b64decode loadImage modelReply parseJson req).status = 200 ∧
    (analyze_image b64decode loadImage modelReply parseJson req).success = true ∧
    ∃ b c d l ao,
      validate_result (create_fallback_result text (req.object_name.getD [])) =
        [("found", PyVal.vBool b), ("confidence", PyVal.vStr c), ("description", d),
         ("location", l), ("additional_objects", PyVal.vList ao)] := by
  obtain ⟨bs, hb, hl⟩ := hbytes
  have hcond : (!optTruthy req.image || !optTruthy req.object_name) = false := by
    rw [himg, hname]
    rfl
  have hnorm : normalizeReply parseJson text (req.object_name.getD []) =
      validate_result (create_fallback_result text (req.object_name.getD [])) := by
    unfold normalizeReply
    rcases hfail with h | h
    · rw [h]
    · cases he : extractSpan text with
      | none => rfl
      | some sp =>
        show validate_result ((parseJson sp).getD
          (create_fallback_result text (req.object_name.getD []))) = _
        rw [h sp he]
        rfl
  have hmain : analyze_image b64decode loadImage modelReply parseJson req =
      .ok (validate_result (create_fallback_result text (req.object_name.getD []))) := by
    simp only [analyze_image, hcond, Bool.false_eq_true, if_false, hb, hl, hreply,
      if_true, hnorm]
  refine ⟨hmain, by rw [hmain]; rfl, by rw [hmain]; rfl, ?_⟩
  obtain ⟨b, c, d, l, ao, heq, _⟩ :=
    validate_result_shape (create_fallback_result text (req.object_name.getD []))
  exact ⟨b, c, d, l, ao, heq⟩

/-- C8 witness: a parser that always fails on a braceless reply still
yields a 200 response carrying the validated fallback result. -/
theorem c8_witness :
    analyze_image (fun _ => some []) (fun _ => true) (fun _ => some "hello".data)
        (fun _ => none) ⟨some "Zm9v".data, some "cat".data⟩ =
      .ok (validate_result (create_fallback_result "hello".data "cat".data)) ∧
    (analyze_image (fun _ => some []) (fun _ => true) (fun _ => some "hello".data)
        (fun _ => none) ⟨some "Zm9v".data, some "cat".data⟩).status = 200 :=
  ⟨(c8_parse_failure_absorbed (fun _ => some []) (fun _ => true)
      (fun _ => some "hello".data) (fun _ => none)
      ⟨some "Zm9v".data, some "cat".data⟩ "hello".data
      rfl rfl ⟨[], rfl, rfl⟩ rfl (Or.inl rfl)).1,
   (c8_parse_failure_absorbed (fun _ => some []) (fun _ => true)
      (fun _ => some "hello".data) (fun _ => none)
      ⟨some "Zm9v".data, some "cat".data⟩ "hello".data
      rfl rfl ⟨[], rfl, rfl⟩ rfl (Or.inl rfl)).2.1⟩

/-- C9: when the image field is present but its payload is not valid
base64, or the decoded bytes are not a loadable image, the endpoint
responds 400 with success=false, never 500. -/
theorem c9_bad_image_400
    (b64decode : RawText → Option (List Nat)) (loadImage : List Nat → Bool)
    (modelReply : RawText → Option RawText) (parseJson : RawText → Option Mapping)
    (req : AnalysisRequest)
    (himg : optTruthy req.image = true)
    (hname : optTruthy req.object_name = true)
    (hfail : b64decode (stripDataUrl (req.image.getD [])) = none ∨
      ∃ bs, b64decode (stripDataUrl (req.image.getD [])) = some bs ∧
        loadImage bs = false) :
    (analyze_image b64decode loadImage modelReply parseJson req).status = 400 ∧
    (analyze_image b64decode loadImage modelReply parseJson req).success = false := by
  have hcond : (!optTruthy req.image || !optTruthy req.object_name) = false := by
    rw [himg, hname]
    rfl
  rcases hfail with h | ⟨bs, hb, hl⟩
  · have hmain : analyze_image b64decode loadImage modelReply parseJson req =
        .badRequest "Invalid base64 image data" := by
      simp only [analyze_image, hcond, Bool.false_eq_true, if_false, h]
    rw [hmain]
    exact ⟨rfl, rfl⟩
  · have hmain : analyze_image b64decode loadImage modelReply parseJson req =
        .badRequest "Invalid image format" := by
      simp only [analyze_image, hcond, Bool.false_eq_true, if_false, hb, hl]
    rw [hmain]
    exact ⟨rfl, rfl⟩

/-- C9 witness: a decoder that rejects the payload makes the endpoint
answer 400 with success=false. -/
theorem c9_witness :
    (analyze_image (fun _ => none) (fun _ => true) (fun _ => some [])
        (fun _ => none) ⟨some "!!".data, some "cat".data⟩).status = 400 ∧
    (analyze_image (fun _ => none) (fun _ => true) (fun _ => some [])
        (fun _ => none) ⟨some "!!".data, some "cat".data⟩).success = false :=
  c9_bad_image_400 (fun _ => none) (fun _ => true) (fun _ => some [])
    (fun _ => none) ⟨some "!!".data, some "cat".data⟩ rfl rfl (Or.inl rfl)
